import Mathlib

/-!
Verification of the student-roster pipeline (clean → validate → persist →
aggregate) against its natural-language specification.

The Python sources are shallowly embedded:
* a pandas cell is a `Value` (null / numeric / text);
* a row of the cleaned dataframe is a `Record`;
* a row prepared for insertion (`insertion_data` in `04_data_insertion.py`)
  is an `InsertRow`, with `Option` fields for SQL NULL;
* dataframes and tables are Lean lists, SQL queries are list functions.
-/

namespace StudentAnalysis

/-- One pandas cell: missing (NaN/None), a numeric value, or a text value.
Numerics are modelled as rationals (ideal decimals). -/
inductive Value where
  | null : Value
  | num (q : Rat) : Value
  | str (s : String) : Value
deriving DecidableEq

/-- pandas `isnull` on one cell. -/
def Value.isNull : Value → Bool
  | .null => true
  | _ => false

/-- One row of the student dataframe: the source columns
`student name, age, average mark, gender, phone number` plus the derived
`first name, last name` columns added by the cleaning stage. -/
structure Record where
  student_name : Value
  first_name : Value
  last_name : Value
  age : Value
  average_mark : Value
  gender : Value
  phone_number : Value
deriving DecidableEq

/-! ## Cleaner (`02_data_cleaning.py`)

`remove_missing_average_marks` is `df.dropna(subset=['average mark'])`:
row-wise retention of exactly the rows whose `average mark` cell is not
null. -/

/-- `df.dropna(subset=['average mark'])` from `remove_missing_average_marks`
(`02_data_cleaning.py`, lines 28-51): drop each row whose average-mark cell
is missing, keep every other row in order. -/
def remove_missing_average_marks : List Record → List Record
  | [] => []
  | r :: rs =>
    if r.average_mark.isNull then remove_missing_average_marks rs
    else r :: remove_missing_average_marks rs

/-- The cell test used by the spec's claim for the Cleaner: the average-mark
field is present AND numeric (written from the claim's words, for
comparison with the code's null-only filter). -/
def markPresentAndNumeric : Value → Bool
  | .num _ => true
  | _ => false

/-- The Cleaner's output as the claim describes it: keep exactly the rows
whose average-mark field is present and numeric (written from the claim's
words). -/
def claimedCleanerOutput (df : List Record) : List Record :=
  df.filter (fun r => markPresentAndNumeric r.average_mark)

/-! ## Validator (`04_data_insertion.py`, `validate_data_before_insertion`)

The function accumulates, over the whole dataframe: missing-value counts
for the five critical columns, an invalid-age count (`age < 1 or
age > 150`), an invalid-mark count (`mark < 0 or mark > 10`), and an
invalid-gender count (`not isin(['m','f'])`); `validation_passed` stays
true iff every one of those counts is zero.  pandas semantics embedded:
a comparison against a null cell is false, `isin` on a null cell is
false. -/

/-- One row's contribution to `invalid_ages`: the pandas filter
`(df['age'] < 1) | (df['age'] > 150)` (null compares false). -/
def ageOutOfRange : Value → Bool
  | .num q => decide (q < 1) || decide (150 < q)
  | _ => false

/-- One row's contribution to `invalid_marks`: the pandas filter
`(df['average mark'] < 0) | (df['average mark'] > 10)` (null compares
false). -/
def markOutOfRange : Value → Bool
  | .num q => decide (q < 0) || decide (10 < q)
  | _ => false

/-- One cell's `isin(['m', 'f'])` (null is not in the list). -/
def genderIsMF (v : Value) : Bool :=
  v == .str "m" || v == .str "f"

/-- `validate_data_before_insertion` (`04_data_insertion.py`, lines 89-134):
missing-value counts over the five critical columns, the age and
average-mark range filters, and the gender `isin` check, each accumulated
across the whole dataframe; the overall flag is true iff no check ever
fired. -/
def validate_data_before_insertion (df : List Record) : Bool :=
  (df.countP (fun r => r.first_name.isNull) == 0) &&
  (df.countP (fun r => r.last_name.isNull) == 0) &&
  (df.countP (fun r => r.age.isNull) == 0) &&
  (df.countP (fun r => r.average_mark.isNull) == 0) &&
  (df.countP (fun r => r.gender.isNull) == 0) &&
  (df.countP (fun r => ageOutOfRange r.age) == 0) &&
  (df.countP (fun r => markOutOfRange r.average_mark) == 0) &&
  df.all (fun r => genderIsMF r.gender)

/-- The checks `validate_data_before_insertion` actually applies, collected
on one record: the five critical cells present, age and mark in range,
gender one of `m`/`f`. -/
def recordPassesCheckedInvariants (r : Record) : Bool :=
  !r.first_name.isNull && !r.last_name.isNull && !r.age.isNull &&
  !r.average_mark.isNull && !r.gender.isNull &&
  !ageOutOfRange r.age && !markOutOfRange r.average_mark &&
  genderIsMF r.gender

/-- Violation of the §3 invariant "phone_number, if present, is an integer"
(written from the claim's words): a present cell that is not an integer. -/
def phoneIntegerInvariantViolated : Value → Bool
  | .null => false
  | .num q => !(q.den == 1)
  | .str _ => true

/-- Violation count, across a batch, of the §3 phone-number invariant
(written from the claim's words). -/
def specPhoneViolations (df : List Record) : Nat :=
  df.countP (fun r => phoneIntegerInvariantViolated r.phone_number)

/-- Violation of the §3 invariant "first_name and last_name are non-empty"
for one cell (written from the claim's words): anything but a non-empty
text value violates it. -/
def nameNonEmptyInvariantViolated : Value → Bool
  | .str s => s == ""
  | _ => true

/-- Violation count, across a batch, of the §3 non-empty-last-name
invariant (written from the claim's words). -/
def specLastNameViolations (df : List Record) : Nat :=
  df.countP (fun r => nameNonEmptyInvariantViolated r.last_name)

/-! ## Name splitting (`02_data_cleaning.py`, `split_student_names`)

`df['student name'].str.split(' ', expand=True)` applies Python's
`str.split(' ')` to each non-null cell: the string is cut at every single
space character, and consecutive separators produce empty parts (Python:
`"a  b".split(' ') == ['a', '', 'b']`).  The new `first name` column is
part 0 and `last name` is part 1 (missing when the split produced fewer
than two parts; a null input cell yields null in both columns). -/

/-- Python's `str.split(sep)` for a one-character separator, on the
character list of the string: cut at every occurrence of `sep`, keeping
empty parts. -/
def splitOnChar (sep : Char) : List Char → List (List Char)
  | [] => [[]]
  | c :: cs =>
    if c == sep then [] :: splitOnChar sep cs
    else
      match splitOnChar sep cs with
      | [] => [[c]]
      | p :: ps => (c :: p) :: ps

/-- Python's `s.split(' ')` on a Lean string. -/
def pySplitSpace (s : String) : List String :=
  (splitOnChar ' ' s.data).map (fun cs => ⟨cs⟩)

/-- An optional string as a pandas cell: `None` is null. -/
def optStrToValue : Option String → Value
  | none => .null
  | some s => .str s

/-- The per-row effect of `split_student_names` (`02_data_cleaning.py`,
lines 53-81) on the student-name cell: `(name_parts[0], name_parts[1])`
from `str.split(' ', expand=True)`; a null name yields null parts. -/
def split_student_names_row (v : Value) : Value × Value :=
  match v with
  | .str s => (optStrToValue (pySplitSpace s)[0]?, optStrToValue (pySplitSpace s)[1]?)
  | _ => (.null, .null)

/-- `split_student_names` over the whole dataframe: adds the two derived
name columns to every row. -/
def split_student_names (df : List Record) : List Record :=
  df.map (fun r =>
    { r with
      first_name := (split_student_names_row r.student_name).1
      last_name := (split_student_names_row r.student_name).2 })

/-- Tokenisation as the claim describes the split: cut the name at every
run of whitespace and keep the non-empty tokens (written from the claim's
words, for comparison with the code's single-space split). -/
def whitespaceTokens (s : String) : List String :=
  ((splitOnChar ' ' s.data).map (fun cs => (⟨cs⟩ : String))).filter (fun t => t ≠ "")

/-- The split as the claim describes it: first whitespace token and second
whitespace token (written from the claim's words). -/
def claimedSplitRow (v : Value) : Value × Value :=
  match v with
  | .str s => (optStrToValue (whitespaceTokens s)[0]?, optStrToValue (whitespaceTokens s)[1]?)
  | _ => (.null, .null)

/-! ## Persisted rows and the table schema (`03_database_setup.py`)

`create_students_table` issues one `CREATE TABLE IF NOT EXISTS` with these
column constraints on the caller-supplied rows (`id` and `created_at` are
store-assigned and carry no caller-facing constraint):

* `student_name VARCHAR(100) NOT NULL`
* `first_name VARCHAR(50) NOT NULL`, `last_name VARCHAR(50) NOT NULL`
* `age INTEGER NOT NULL CHECK (age > 0)`
* `average_mark NUMERIC(4,2) NOT NULL CHECK (average_mark >= 0 AND average_mark <= 10)`
* `gender CHAR(1) NOT NULL CHECK (gender IN ('m', 'f'))`
* `phone_number BIGINT` (nullable, no check)
-/

/-- One tuple of `insertion_data` as built in `insert_student_data`
(`04_data_insertion.py`, lines 164-179): the seven caller-supplied column
values, `Option` marking SQL NULL. -/
structure InsertRow where
  student_name : Option String
  first_name : Option String
  last_name : Option String
  age : Option Int
  average_mark : Option Rat
  gender : Option String
  phone_number : Option Int
deriving DecidableEq

/-- The store's acceptance test for one row, transcribed from the
`CREATE TABLE` statement of `create_students_table`
(`03_database_setup.py`, lines 117-167): every `NOT NULL` column present,
`age > 0`, `average_mark` between 0 and 10, `gender` one of `m`/`f`;
`phone_number` is unconstrained. -/
def rowSatisfiesTableConstraints (r : InsertRow) : Bool :=
  r.student_name.isSome &&
  r.first_name.isSome &&
  r.last_name.isSome &&
  (match r.age with | some a => decide (0 < a) | none => false) &&
  (match r.average_mark with
   | some m => decide (0 ≤ m) && decide (m ≤ 10)
   | none => false) &&
  (match r.gender with | some g => g == "m" || g == "f" | none => false)

/-- The schema's acceptance test as the claim describes it, with the
claimed upper bound `age ≤ 150` (written from the claim's words, for
comparison with the DDL's `CHECK (age > 0)`). -/
def claimedSchemaRowCheck (r : InsertRow) : Bool :=
  r.student_name.isSome &&
  r.first_name.isSome &&
  r.last_name.isSome &&
  (match r.age with | some a => decide (0 < a) && decide (a ≤ 150) | none => false) &&
  (match r.average_mark with
   | some m => decide (0 ≤ m) && decide (m ≤ 10)
   | none => false) &&
  (match r.gender with | some g => g == "m" || g == "f" | none => false)

/-! ## BatchWriter (`04_data_insertion.py`, `insert_student_data`)

The function counts the existing rows; a non-empty table with the operator
declining (`allowReinsertIfNonEmpty = false` in the spec's modelling)
aborts before any insert.  Otherwise `cursor.executemany` runs every
`INSERT` in one transaction: the first row the store rejects raises, the
`except` arm calls `conn.rollback()` (the table reverts to its pre-attempt
contents), and only an error-free pass reaches `conn.commit()`. -/

/-- Outcome of one `insert_student_data` call, distinguished in the source
by its return path and console diagnostic. -/
inductive InsertOutcome where
  | ok : InsertOutcome
  | duplicateInsertionRefused : InsertOutcome
  | transactionError : InsertOutcome
deriving DecidableEq

/-- `cursor.executemany` inside the transaction: insert the batch rows one
at a time; the first row the store's constraints reject raises a database
error. -/
def executemanyInsert (table : List InsertRow) : List InsertRow → Except Unit (List InsertRow)
  | [] => .ok table
  | r :: rs =>
    if rowSatisfiesTableConstraints r then executemanyInsert (table ++ [r]) rs
    else .error ()

/-- `insert_student_data` (`04_data_insertion.py`, lines 136-205): refuse a
non-empty table unless reinsertion is allowed; otherwise run the batch in
one transaction, committing on success and rolling back to the pre-attempt
table on the first store error. -/
def insert_student_data (table : List InsertRow) (batch : List InsertRow)
    (allowReinsertIfNonEmpty : Bool) : InsertOutcome × List InsertRow :=
  if 0 < table.length && !allowReinsertIfNonEmpty then
    (.duplicateInsertionRefused, table)
  else
    match executemanyInsert table batch with
    | .ok committed => (.ok, committed)
    | .error _ => (.transactionError, table)

/-! ## Post-commit verification (`04_data_insertion.py`) -/

/-- The null test `verify_insertion_success` runs over the required
columns of one stored row. -/
def requiredFieldsPresent (r : InsertRow) : Bool :=
  r.first_name.isSome && r.last_name.isSome && r.age.isSome &&
  r.average_mark.isSome && r.gender.isSome

/-- `verify_insertion_success` (`04_data_insertion.py`, lines 207-275):
re-query the row count and fail when `actual_count >= expected_count` does
not hold; otherwise report whether any required column holds a null. -/
def verify_insertion_success (table : List InsertRow) (expected_count : Nat) : Bool :=
  if expected_count ≤ table.length then table.all requiredFieldsPresent
  else false

/-- The count comparison as the claim describes it: the re-queried count
equals the pre-batch count plus the number of inserted records (written
from the claim's words, for comparison with the code's `>=` test against
the batch size alone). -/
def claimedVerificationCheck (actual preBatch inserted : Nat) : Bool :=
  actual == preBatch + inserted

/-- How `main` (`04_data_insertion.py`, lines 315-323) consumes the
verification result after the commit. -/
inductive PipelineReport where
  | insertionComplete : PipelineReport
  | verificationWarning : PipelineReport
deriving DecidableEq

/-- Step 6 of `main` (`04_data_insertion.py`, lines 315-323): run
`verify_insertion_success` with `len(df)` as the expected count; either
way the run continues to the `finally` block and the committed table is
left untouched. -/
def main_verification_step (table : List InsertRow) (batchLen : Nat) :
    PipelineReport × List InsertRow :=
  if verify_insertion_success table batchLen then (.insertionComplete, table)
  else (.verificationWarning, table)

/-! ## Aggregator (`05_data_analysis.py`)

The two analytical queries touch only the `age`, `average_mark` and
`gender` columns of the persisted (constraint-satisfying) rows, so a
persisted row is modelled by those three fields.  SQL `GROUP BY` semantics
is embedded as: collect the distinct grouping keys of the selected rows,
compute each group's aggregates over the rows with that key, and order the
group rows as the `ORDER BY` clause dictates. -/

/-- The projection of one persisted row the analysis queries read. -/
structure StudentRow where
  age : Int
  average_mark : Rat
  gender : String
deriving DecidableEq

/-- Lexicographic strict order on character lists (character order is the
code-point order SQL's default collation applies to these one-letter
keys). -/
def lexLt : List Char → List Char → Bool
  | [], [] => false
  | [], _ :: _ => true
  | _ :: _, [] => false
  | a :: as, b :: bs =>
    if a < b then true
    else if b < a then false
    else lexLt as bs

/-- Lexicographic strict order on strings. -/
def strLt (a b : String) : Bool :=
  lexLt a.data b.data

/-- Insert a grouping key into an ascending duplicate-free key list,
keeping it ascending and duplicate-free. -/
def insertKey (g : String) : List String → List String
  | [] => [g]
  | k :: ks =>
    if g == k then k :: ks
    else if strLt g k then g :: k :: ks
    else k :: insertKey g ks

/-- The distinct grouping keys of a key list, in ascending order:
`GROUP BY gender ... ORDER BY gender`. -/
def sortedKeys : List String → List String
  | [] => []
  | g :: gs => insertKey g (sortedKeys gs)

/-- SQL `AVG` over a group's values. -/
def sqlAvg (l : List Rat) : Rat :=
  l.sum / l.length

/-- SQL `MIN` over a group's values (groups are never empty; the nil case
is a dead default). -/
def sqlMin : List Rat → Rat
  | [] => 0
  | m :: ms => ms.foldl min m

/-- SQL `MAX` over a group's values (groups are never empty; the nil case
is a dead default). -/
def sqlMax : List Rat → Rat
  | [] => 0
  | m :: ms => ms.foldl max m

/-- One result row of the gender analysis query: the selected columns
`gender, student_count, avg_mark_in_group, min_mark_in_group,
max_mark_in_group`. -/
structure GenderAgg where
  gender : String
  student_count : Nat
  avg_mark_in_group : Rat
  min_mark_in_group : Rat
  max_mark_in_group : Rat
deriving DecidableEq

/-- The aggregates of one gender group, computed over the already-filtered
row set. -/
def mkGenderAgg (g : String) (filtered : List StudentRow) : GenderAgg :=
  let marks := (filtered.filter (fun r => r.gender == g)).map (fun r => r.average_mark)
  { gender := g
    student_count := marks.length
    avg_mark_in_group := sqlAvg marks
    min_mark_in_group := sqlMin marks
    max_mark_in_group := sqlMax marks }

/-- The analysis query of `analyze_student_performance_by_gender`
(`05_data_analysis.py`, lines 88-113): filter to `average_mark > 5.0`,
group by `gender`, aggregate count/avg/min/max per group, order the group
rows by `gender` ascending. -/
def analyze_student_performance_by_gender (table : List StudentRow) : List GenderAgg :=
  let filtered := table.filter (fun r => decide ((5 : Rat) < r.average_mark))
  (sortedKeys (filtered.map (fun r => r.gender))).map (fun g => mkGenderAgg g filtered)

/-- The `CASE` expression of the age-group query
(`05_data_analysis.py`, lines 185-209): bucket label of one age. -/
def age_group (a : Int) : String :=
  if a < 20 then "Under 20"
  else if 20 ≤ a && a ≤ 25 then "20-25"
  else "Over 25"

/-- One result row of the age-group query: the selected columns
`age_group, total_students, high_performers, avg_mark`. -/
structure AgeAgg where
  age_group : String
  total_students : Nat
  high_performers : Nat
  avg_mark : Rat
deriving DecidableEq

/-- The aggregates of one age bucket, computed over every table row whose
age falls in the bucket (the query has no `WHERE` clause): total count,
count of rows with `average_mark > 5.0`, and average mark. -/
def mkAgeAgg (g : String) (table : List StudentRow) : AgeAgg :=
  let rows := table.filter (fun r => age_group r.age == g)
  { age_group := g
    total_students := rows.length
    high_performers := (rows.filter (fun r => decide ((5 : Rat) < r.average_mark))).length
    avg_mark := sqlAvg (rows.map (fun r => r.average_mark)) }

/-- The distinct grouping keys in order of first appearance (`GROUP BY`
produces one group per key occurring in the data). -/
def firstAppearanceKeys : List String → List String
  | [] => []
  | g :: gs => g :: (firstAppearanceKeys gs).filter (fun k => k != g)

/-- Insertion step of the `ORDER BY avg_mark DESC` sort on the group
rows. -/
def insertByAvgDesc (x : AgeAgg) : List AgeAgg → List AgeAgg
  | [] => [x]
  | y :: ys =>
    if decide (y.avg_mark ≤ x.avg_mark) then x :: y :: ys
    else y :: insertByAvgDesc x ys

/-- `ORDER BY avg_mark DESC` on the group rows (SQL fixes only the
weakly-descending average; this executable model realises one compliant
order). -/
def sortByAvgDesc : List AgeAgg → List AgeAgg
  | [] => []
  | x :: xs => insertByAvgDesc x (sortByAvgDesc xs)

/-- The age-group query of `perform_additional_exploratory_analysis`
(`05_data_analysis.py`, lines 185-209): group every table row by its age
bucket (no filter), aggregate per bucket, order the group rows by average
mark descending. -/
def perform_additional_exploratory_analysis (table : List StudentRow) : List AgeAgg :=
  sortByAvgDesc
    ((firstAppearanceKeys (table.map (fun r => age_group r.age))).map
      (fun g => mkAgeAgg g table))

/-! ## The tail of `main` (`04_data_insertion.py`, lines 308-329)

Step 5 failing calls `sys.exit(1)`; step 6 (verification) failing only
prints a diagnostic and the run still reaches the `finally` block. -/

/-- How a run of `main` ends after the connection is up: a fatal
`sys.exit(1)`, or completion (with or without a verification warning). -/
inductive MainOutcome where
  | fatalExit : MainOutcome
  | completed (warned : Bool) : MainOutcome
deriving DecidableEq

/-- Steps 5-6 of `main` (`04_data_insertion.py`, lines 308-323): insert the
batch; a failed insertion exits fatally; a committed batch is verified with
`verify_insertion_success(conn, table, len(df))`, whose failure is only a
warning. -/
def main_insert_and_verify (table batch : List InsertRow) (allow : Bool) :
    MainOutcome × List InsertRow :=
  match insert_student_data table batch allow with
  | (.ok, committed) =>
    if verify_insertion_success committed batch.length then (.completed false, committed)
    else (.completed true, committed)
  | (_, t) => (.fatalExit, t)

/-! ## Phone-number independence of the Validator -/

/-- A record with its phone-number cell blanked; every column the Validator
reads is kept. -/
def scrubPhone (r : Record) : Record :=
  ⟨r.student_name, r.first_name, r.last_name, r.age, r.average_mark, r.gender, .null⟩

/-- Row-wise agreement of two dataframes on every column except
`phone number`. -/
def agreeExceptPhone : List Record → List Record → Bool
  | [], [] => true
  | r :: rs, s :: ss =>
    r.student_name == s.student_name && r.first_name == s.first_name &&
    r.last_name == s.last_name && r.age == s.age &&
    r.average_mark == s.average_mark && r.gender == s.gender &&
    agreeExceptPhone rs ss
  | _, _ => false

/-! ## Supporting lemmas -/

/-- A failing row anywhere in the batch makes `executemany` raise,
whatever the table contents at that point. -/
theorem executemanyInsert_error {batch : List InsertRow} :
    ∀ table, (∃ r ∈ batch, rowSatisfiesTableConstraints r = false) →
      executemanyInsert table batch = .error () := by
  induction batch with
  | nil => rintro table ⟨r, hr, -⟩; exact absurd hr (List.not_mem_nil r)
  | cons b bs ih =>
    rintro table ⟨r, hr, hbad⟩
    rcases List.mem_cons.mp hr with rfl | hr
    · simp [executemanyInsert, hbad]
    · cases hb : rowSatisfiesTableConstraints b
      · simp [executemanyInsert, hb]
      · simpa [executemanyInsert, hb] using ih (table ++ [b]) ⟨r, hr, hbad⟩

/-- `splitOnChar` always yields at least one part. -/
theorem splitOnChar_ne_nil (sep : Char) (l : List Char) : splitOnChar sep l ≠ [] := by
  cases l with
  | nil => simp [splitOnChar]
  | cons c cs =>
    by_cases h : c == sep
    · simp [splitOnChar, h]
    · cases hs : splitOnChar sep cs <;> simp [splitOnChar, h, hs]

/-- The first part of `splitOnChar` is the prefix before the first
separator. -/
theorem splitOnChar_zero (sep : Char) (l : List Char) :
    (splitOnChar sep l)[0]? = some (l.takeWhile (fun c => !(c == sep))) := by
  induction l with
  | nil => rfl
  | cons c cs ih =>
    by_cases h : c == sep
    · simp only [splitOnChar, h, if_pos]
      simp [List.takeWhile_cons, h]
    · cases hs : splitOnChar sep cs with
      | nil => exact absurd hs (splitOnChar_ne_nil sep cs)
      | cons p ps =>
        rw [hs] at ih
        simp only [List.getElem?_cons_zero, Option.some.injEq] at ih
        simp [splitOnChar, h, hs, List.takeWhile_cons, ih]

/-- The second part of `splitOnChar` exists iff the separator occurs, and
is then the segment between the first separator and the next one. -/
theorem splitOnChar_one (sep : Char) (l : List Char) :
    (splitOnChar sep l)[1]? =
      if sep ∈ l then
        some (((l.dropWhile (fun c => !(c == sep))).drop 1).takeWhile (fun c => !(c == sep)))
      else none := by
  induction l with
  | nil => rfl
  | cons c cs ih =>
    by_cases h : c == sep
    · have hc : c = sep := by simpa using h
      simp only [splitOnChar, h, if_pos, List.getElem?_cons_succ]
      rw [splitOnChar_zero]
      simp [List.dropWhile_cons, h, hc]
    · have hc : ¬ c = sep := by simpa using h
      cases hs : splitOnChar sep cs with
      | nil => exact absurd hs (splitOnChar_ne_nil sep cs)
      | cons p ps =>
        rw [hs] at ih
        have hc2 : ¬ sep = c := fun hh => hc hh.symm
        simp only [splitOnChar, h, if_neg, hs]
        simpa [List.dropWhile_cons, h, hc, hc2] using ih

/-- `lexLt` never relates a list to itself. -/
theorem lexLt_irrefl : ∀ l : List Char, lexLt l l = false
  | [] => rfl
  | c :: cs => by simp [lexLt, lt_irrefl, lexLt_irrefl cs]

/-- Of two distinct lists, one is `lexLt`-below the other. -/
theorem lexLt_connex : ∀ {a b : List Char}, a ≠ b → lexLt a b = false → lexLt b a = true
  | [], [], hne, _ => absurd rfl hne
  | [], _ :: _, _, hf => by simp [lexLt] at hf
  | _ :: _, [], _, _ => by simp [lexLt]
  | a :: as, b :: bs, hne, hf => by
    by_cases h1 : a < b
    · simp [lexLt, h1] at hf
    · by_cases h2 : b < a
      · simp [lexLt, h2]
      · have hab : a = b := le_antisymm (not_lt.mp h2) (not_lt.mp h1)
        subst hab
        have htne : as ≠ bs := fun hh => hne (by rw [hh])
        have htf : lexLt as bs = false := by simpa [lexLt, h1] using hf
        simpa [lexLt, h1] using lexLt_connex htne htf

/-- `lexLt` agrees with the lexicographic strict order on character
lists. -/
theorem lexLt_iff_lex : ∀ (a b : List Char), lexLt a b = true ↔ List.Lex (· < ·) a b
  | [], [] => by
    constructor
    · intro h; simp [lexLt] at h
    · intro h; cases h
  | [], b :: bs => ⟨fun _ => List.Lex.nil, fun _ => rfl⟩
  | a :: as, [] => by
    constructor
    · intro h; simp [lexLt] at h
    · intro h; cases h
  | a :: as, b :: bs => by
    by_cases h1 : a < b
    · exact ⟨fun _ => List.Lex.rel h1, fun _ => by simp [lexLt, h1]⟩
    · by_cases h2 : b < a
      · have hL : lexLt (a :: as) (b :: bs) = false := by simp [lexLt, h1, h2]
        rw [hL]
        constructor
        · intro h; simp at h
        · intro h
          cases h with
          | rel hr => exact absurd hr h1
          | cons _ => exact absurd h2 (lt_irrefl _)
      · have hab : a = b := le_antisymm (not_lt.mp h2) (not_lt.mp h1)
        subst hab
        have hstep : lexLt (a :: as) (a :: bs) = lexLt as bs := by simp [lexLt, h1]
        rw [hstep, lexLt_iff_lex as bs]
        constructor
        · exact List.Lex.cons
        · intro h
          cases h with
          | rel hr => exact absurd hr h1
          | cons ht => exact ht

/-- `strLt` agrees with the strict order on strings. -/
theorem strLt_iff_lt (a b : String) : strLt a b = true ↔ a < b := by
  rw [String.lt_iff_toList_lt]
  exact lexLt_iff_lex a.data b.data

/-- Of two distinct strings, one is `strLt`-below the other. -/
theorem strLt_connex {a b : String} (hne : a ≠ b) (hf : strLt a b = false) :
    strLt b a = true :=
  lexLt_connex (fun hh => hne (String.ext hh)) hf

/-- The head of an `insertKey` result is the new key or the old head. -/
theorem insertKey_head? (g : String) :
    ∀ (l : List String) (x : String),
      (insertKey g l).head? = some x → x = g ∨ l.head? = some x
  | [], x, h => by simp [insertKey] at h; exact Or.inl h.symm
  | k :: ks, x, h => by
    by_cases hgk : g == k
    · simp only [insertKey, hgk, if_pos, List.head?_cons, Option.some.injEq] at h
      exact Or.inr (by simp [h])
    · by_cases hlt : strLt g k
      · simp only [insertKey, hgk, hlt, if_neg, if_pos, Bool.not_eq_true,
          List.head?_cons, Option.some.injEq] at h
        exact Or.inl h.symm
      · simp only [insertKey, hgk, hlt, if_neg, Bool.not_eq_true,
          List.head?_cons, Option.some.injEq] at h
        exact Or.inr (by simp [h])

/-- `insertKey` keeps a strictly ascending key list strictly ascending. -/
theorem chain'_insertKey (g : String) :
    ∀ {l : List String}, List.Chain' (fun a b => strLt a b = true) l →
      List.Chain' (fun a b => strLt a b = true) (insertKey g l)
  | [], _ => List.chain'_singleton g
  | k :: ks, h => by
    by_cases hgk : g == k
    · simpa [insertKey, hgk] using h
    · by_cases hlt : strLt g k
      · have hch : List.Chain' (fun a b => strLt a b = true) (g :: k :: ks) :=
          List.chain'_cons.mpr ⟨hlt, h⟩
        simpa [insertKey, hgk, hlt] using hch
      · have hne : g ≠ k := by simpa using hgk
        have hkg : strLt k g = true :=
          strLt_connex hne (by simpa using hlt)
        have hks : List.Chain' (fun a b => strLt a b = true) ks := h.tail
        have hins := chain'_insertKey g hks
        simp only [insertKey, hgk, hlt, if_neg, Bool.not_eq_true]
        rw [List.chain'_cons']
        refine ⟨fun y hy => ?_, hins⟩
        rcases insertKey_head? g ks y hy with rfl | hy2
        · exact hkg
        · exact (List.chain'_cons'.mp h).1 y hy2

/-- The grouping keys come out strictly ascending. -/
theorem chain'_sortedKeys : ∀ l : List String,
    List.Chain' (fun a b => strLt a b = true) (sortedKeys l)
  | [] => List.chain'_nil
  | g :: gs => chain'_insertKey g (chain'_sortedKeys gs)

/-- Membership in an `insertKey` result. -/
theorem mem_insertKey {x g : String} :
    ∀ {l : List String}, x ∈ insertKey g l ↔ x = g ∨ x ∈ l
  | [] => by simp [insertKey]
  | k :: ks => by
    by_cases hgk : g == k
    · have : g = k := by simpa using hgk
      subst this
      simp [insertKey, hgk]
    · by_cases hlt : strLt g k
      · simp [insertKey, hgk, hlt]
      · simp [insertKey, hgk, hlt, mem_insertKey (l := ks)]
        tauto

/-- The grouping keys are exactly the keys occurring in the data. -/
theorem mem_sortedKeys {x : String} :
    ∀ {l : List String}, x ∈ sortedKeys l ↔ x ∈ l
  | [] => Iff.rfl
  | g :: gs => by
    simp [sortedKeys, mem_insertKey, mem_sortedKeys (l := gs)]

/-- The head of an `insertByAvgDesc` result is the new row or the old
head. -/
theorem insertByAvgDesc_head? (a : AgeAgg) :
    ∀ (l : List AgeAgg) (x : AgeAgg),
      (insertByAvgDesc a l).head? = some x → x = a ∨ l.head? = some x
  | [], x, h => by simp [insertByAvgDesc] at h; exact Or.inl h.symm
  | y :: ys, x, h => by
    by_cases hle : y.avg_mark ≤ a.avg_mark
    · simp [insertByAvgDesc, hle] at h
      exact Or.inl h.symm
    · simp [insertByAvgDesc, hle] at h
      exact Or.inr (by simp [h])

/-- `insertByAvgDesc` keeps a weakly descending row list weakly
descending. -/
theorem chain'_insertByAvgDesc (a : AgeAgg) :
    ∀ {l : List AgeAgg},
      List.Chain' (fun x y : AgeAgg => y.avg_mark ≤ x.avg_mark) l →
      List.Chain' (fun x y : AgeAgg => y.avg_mark ≤ x.avg_mark) (insertByAvgDesc a l)
  | [], _ => List.chain'_singleton a
  | y :: ys, h => by
    by_cases hle : y.avg_mark ≤ a.avg_mark
    · have heq : insertByAvgDesc a (y :: ys) = a :: y :: ys := by
        simp [insertByAvgDesc, hle]
      rw [heq]
      exact List.chain'_cons.mpr ⟨hle, h⟩
    · have heq : insertByAvgDesc a (y :: ys) = y :: insertByAvgDesc a ys := by
        simp [insertByAvgDesc, hle]
      have hys : List.Chain' (fun x y : AgeAgg => y.avg_mark ≤ x.avg_mark) ys := h.tail
      have hins := chain'_insertByAvgDesc a hys
      rw [heq, List.chain'_cons']
      refine ⟨fun x hx => ?_, hins⟩
      rcases insertByAvgDesc_head? a ys x hx with rfl | hx2
      · exact (not_le.mp hle).le
      · exact (List.chain'_cons'.mp h).1 x hx2

/-- The age-bucket rows come out weakly descending on the average mark. -/
theorem chain'_sortByAvgDesc : ∀ l : List AgeAgg,
    List.Chain' (fun x y : AgeAgg => y.avg_mark ≤ x.avg_mark) (sortByAvgDesc l)
  | [] => List.chain'_nil
  | x :: xs => chain'_insertByAvgDesc x (chain'_sortByAvgDesc xs)

/-- Membership in an `insertByAvgDesc` result. -/
theorem mem_insertByAvgDesc {x a : AgeAgg} :
    ∀ {l : List AgeAgg}, x ∈ insertByAvgDesc a l ↔ x = a ∨ x ∈ l
  | [] => by simp [insertByAvgDesc]
  | y :: ys => by
    by_cases hle : y.avg_mark ≤ a.avg_mark
    · simp [insertByAvgDesc, hle]
    · simp [insertByAvgDesc, hle, mem_insertByAvgDesc (l := ys)]
      tauto

/-- Sorting the group rows moves none in and none out. -/
theorem mem_sortByAvgDesc {x : AgeAgg} :
    ∀ {l : List AgeAgg}, x ∈ sortByAvgDesc l ↔ x ∈ l
  | [] => Iff.rfl
  | y :: ys => by
    simp [sortByAvgDesc, mem_insertByAvgDesc, mem_sortByAvgDesc (l := ys)]

/-- The first-appearance keys are exactly the keys occurring in the
data. -/
theorem mem_firstAppearanceKeys {x : String} :
    ∀ {l : List String}, x ∈ firstAppearanceKeys l ↔ x ∈ l
  | [] => Iff.rfl
  | g :: gs => by
    by_cases hxg : x = g
    · subst hxg
      simp [firstAppearanceKeys]
    · simp [firstAppearanceKeys, List.mem_filter, hxg,
        mem_firstAppearanceKeys (l := gs), bne_iff_ne]

/-- Blanking phone numbers does not change the Validator's verdict: none
of its checks reads the phone column. -/
theorem validate_scrub (df : List Record) :
    validate_data_before_insertion (df.map scrubPhone) = validate_data_before_insertion df := by
  unfold validate_data_before_insertion
  rw [List.countP_map, List.countP_map, List.countP_map, List.countP_map,
    List.countP_map, List.countP_map, List.countP_map, List.all_map]
  rfl

/-- Dataframes agreeing outside the phone column agree after blanking
it. -/
theorem agree_scrub : ∀ {df₁ df₂ : List Record},
    agreeExceptPhone df₁ df₂ = true → df₁.map scrubPhone = df₂.map scrubPhone
  | [], [], _ => rfl
  | [], _ :: _, h => by simp [agreeExceptPhone] at h
  | _ :: _, [], h => by simp [agreeExceptPhone] at h
  | r :: rs, s :: ss, h => by
    simp only [agreeExceptPhone, Bool.and_eq_true, beq_iff_eq] at h
    obtain ⟨⟨⟨⟨⟨⟨h1, h2⟩, h3⟩, h4⟩, h5⟩, h6⟩, h7⟩ := h
    simp only [List.map_cons, List.cons.injEq]
    exact ⟨by simp [scrubPhone, h1, h2, h3, h4, h5, h6], agree_scrub h7⟩

/-! ## The claims -/

/-- C1: a batch insertion attempt with any record the store's constraints
reject rolls the whole transaction back, so the post-attempt table equals
the pre-attempt table and its row count is unchanged — zero rows of the
attempted batch persist. -/
theorem insert_student_data_atomicity (table batch : List InsertRow) (allow : Bool)
    (h : ∃ r ∈ batch, rowSatisfiesTableConstraints r = false) :
    (insert_student_data table batch allow).2 = table ∧
    (insert_student_data table batch allow).2.length = table.length := by
  have hst : (insert_student_data table batch allow).2 = table := by
    unfold insert_student_data
    cases hg : (0 < table.length && !allow)
    · rw [executemanyInsert_error table h]; simp
    · simp
  exact ⟨hst, by rw [hst]⟩

/-- C1 witness: on an empty table, a one-record batch whose age violates
the store's `age > 0` check leaves the table empty. -/
theorem insert_student_data_atomicity_witness :
    (∃ r ∈ [(⟨some "Ann Lee", some "Ann", some "Lee", some 0, some 6, some "f",
        none⟩ : InsertRow)], rowSatisfiesTableConstraints r = false) ∧
    (insert_student_data []
      [(⟨some "Ann Lee", some "Ann", some "Lee", some 0, some 6, some "f",
        none⟩ : InsertRow)] true).2 = [] ∧
    (insert_student_data []
      [(⟨some "Ann Lee", some "Ann", some "Lee", some 0, some 6, some "f",
        none⟩ : InsertRow)] true).2.length = ([] : List InsertRow).length :=
  ⟨by decide,
   (insert_student_data_atomicity [] [⟨some "Ann Lee", some "Ann", some "Lee",
      some 0, some 6, some "f", none⟩] true (by decide)).1,
   (insert_student_data_atomicity [] [⟨some "Ann Lee", some "Ann", some "Lee",
      some 0, some 6, some "f", none⟩] true (by decide)).2⟩

/-- C2 counterexample: a one-record batch whose last name is the empty
string and whose phone cell is non-integer text passes
`validate_data_before_insertion`, yet the §3 phone-number and
non-empty-name invariants each count one violation — so `passed` is not
equivalent to all §3 violation counts being zero. -/
theorem validator_skips_phone_counterexample :
    validate_data_before_insertion
      [⟨.str "Ann Lee", .str "Ann", .str "", .num 20, .num 6, .str "f",
        .str "not a number"⟩] = true ∧
    specPhoneViolations
      [⟨.str "Ann Lee", .str "Ann", .str "", .num 20, .num 6, .str "f",
        .str "not a number"⟩] = 1 ∧
    specLastNameViolations
      [⟨.str "Ann Lee", .str "Ann", .str "", .num 20, .num 6, .str "f",
        .str "not a number"⟩] = 1 := by
  decide

/-- C2 (amended): the Validator examines every record of the batch,
without stopping at the first violation, against the checks it implements
— presence of the five critical cells, age in [1,150], average mark in
[0,10], gender in {m,f} — and `passed` is true iff no record of the batch
violates any of those checks; the phone column is not examined and the
name checks test presence, not non-emptiness. -/
theorem validate_data_before_insertion_characterization (df : List Record) :
    validate_data_before_insertion df = true ↔
      ∀ r ∈ df, recordPassesCheckedInvariants r = true := by
  simp only [validate_data_before_insertion, recordPassesCheckedInvariants,
    Bool.and_eq_true, beq_iff_eq, List.countP_eq_zero, List.all_eq_true,
    Bool.not_eq_true', Bool.not_eq_true]
  constructor
  · rintro ⟨⟨⟨⟨⟨⟨⟨h1, h2⟩, h3⟩, h4⟩, h5⟩, h6⟩, h7⟩, h8⟩ r hr
    exact ⟨⟨⟨⟨⟨⟨⟨h1 r hr, h2 r hr⟩, h3 r hr⟩, h4 r hr⟩, h5 r hr⟩, h6 r hr⟩, h7 r hr⟩,
      h8 r hr⟩
  · intro h
    exact ⟨⟨⟨⟨⟨⟨⟨fun r hr => (h r hr).1.1.1.1.1.1.1, fun r hr => (h r hr).1.1.1.1.1.1.2⟩,
      fun r hr => (h r hr).1.1.1.1.1.2⟩, fun r hr => (h r hr).1.1.1.1.2⟩,
      fun r hr => (h r hr).1.1.1.2⟩, fun r hr => (h r hr).1.1.2⟩,
      fun r hr => (h r hr).1.2⟩, fun r hr => (h r hr).2⟩

/-- C3: a non-empty table with reinsertion not allowed makes
`insert_student_data` return the refused outcome with the table unchanged,
before any insert runs. -/
theorem insert_student_data_reinsertion_guard (table batch : List InsertRow)
    (h : 0 < table.length) :
    insert_student_data table batch false = (.duplicateInsertionRefused, table) := by
  simp [insert_student_data, h]

/-- C3 witness: a one-row table refuses a fresh batch and keeps its row. -/
theorem insert_student_data_reinsertion_guard_witness :
    0 < ([(⟨some "Ann Lee", some "Ann", some "Lee", some 20, some 6, some "f",
        none⟩ : InsertRow)] : List InsertRow).length ∧
    insert_student_data
      [(⟨some "Ann Lee", some "Ann", some "Lee", some 20, some 6, some "f",
        none⟩ : InsertRow)]
      [(⟨some "Bo Chan", some "Bo", some "Chan", some 21, some 7, some "m",
        none⟩ : InsertRow)] false =
      (.duplicateInsertionRefused,
        [(⟨some "Ann Lee", some "Ann", some "Lee", some 20, some 6, some "f",
          none⟩ : InsertRow)]) :=
  ⟨by decide,
   insert_student_data_reinsertion_guard _ _ (by decide)⟩

/-- C4 counterexample: a record whose average-mark cell is the text
`N/A` — present but non-numeric — is kept by
`remove_missing_average_marks`, while the claimed present-and-numeric
filter drops it. -/
theorem cleaner_keeps_non_numeric_counterexample :
    remove_missing_average_marks
      [⟨.str "Ann Lee", .null, .null, .num 20, .str "N/A", .str "f", .null⟩] =
      [⟨.str "Ann Lee", .null, .null, .num 20, .str "N/A", .str "f", .null⟩] ∧
    claimedCleanerOutput
      [⟨.str "Ann Lee", .null, .null, .num 20, .str "N/A", .str "f", .null⟩] = [] ∧
    remove_missing_average_marks
      [⟨.str "Ann Lee", .null, .null, .num 20, .str "N/A", .str "f", .null⟩] ≠
    claimedCleanerOutput
      [⟨.str "Ann Lee", .null, .null, .num 20, .str "N/A", .str "f", .null⟩] := by
  decide

/-- C4 (amended): the Cleaner drops exactly the records whose average-mark
cell is absent and keeps every other record in order — including present
but non-numeric marks — so the output length is the number of records with
the mark present; the filter is total and silent. -/
theorem remove_missing_average_marks_spec (df : List Record) :
    remove_missing_average_marks df = df.filter (fun r => !r.average_mark.isNull) ∧
    (remove_missing_average_marks df).length =
      df.countP (fun r => !r.average_mark.isNull) := by
  have heq : remove_missing_average_marks df =
      df.filter (fun r => !r.average_mark.isNull) := by
    induction df with
    | nil => rfl
    | cons r rs ih =>
      cases h : r.average_mark.isNull <;>
        simp [remove_missing_average_marks, List.filter_cons, h, ih]
  exact ⟨heq, by rw [heq, List.countP_eq_length_filter]⟩

/-- C5 counterexample: on the two-space name `Ann  Lee`, the code's
single-space split makes the last name the empty string, while the claimed
whitespace tokenisation would make it `Lee`. -/
theorem split_single_space_counterexample :
    split_student_names_row (Value.str "Ann  Lee") = (Value.str "Ann", Value.str "") ∧
    claimedSplitRow (Value.str "Ann  Lee") = (Value.str "Ann", Value.str "Lee") ∧
    split_student_names_row (Value.str "Ann  Lee") ≠
      claimedSplitRow (Value.str "Ann  Lee") := by
  decide

/-- C5 (amended): the full-name field is cut at every single space
character: the derived first name is the prefix before the first space and
the derived last name is the segment strictly between the first space and
the next one (empty when two spaces are adjacent), later parts being
discarded; a name with no space leaves the last name missing. -/
theorem split_student_names_characterization (s : String) :
    split_student_names_row (.str s) =
      (Value.str ⟨s.data.takeWhile (fun c => !(c == ' '))⟩,
       if ' ' ∈ s.data then
         Value.str ⟨((s.data.dropWhile (fun c => !(c == ' '))).drop 1).takeWhile
           (fun c => !(c == ' '))⟩
       else Value.null) := by
  show (optStrToValue (pySplitSpace s)[0]?, optStrToValue (pySplitSpace s)[1]?) = _
  unfold pySplitSpace
  rw [List.getElem?_map, List.getElem?_map, splitOnChar_zero, splitOnChar_one]
  by_cases h : ' ' ∈ s.data <;> simp [h, optStrToValue]

/-- C6 counterexample: a row with age 200 satisfies every constraint of
the created table — the DDL has no upper bound on age — while the claimed
schema check with `age ≤ 150` rejects it. -/
theorem schema_age_upper_bound_counterexample :
    rowSatisfiesTableConstraints
      ⟨some "Old Person", some "Old", some "Person", some 200, some 6, some "f",
        none⟩ = true ∧
    claimedSchemaRowCheck
      ⟨some "Old Person", some "Old", some "Person", some 200, some 6, some "f",
        none⟩ = false := by
  decide

/-- C6 (amended): the created table accepts a row iff every required
column is present, age is positive (with no upper bound), the average mark
lies in [0,10] and the gender is `m` or `f`; the phone-number column is a
nullable integer column carrying no constraint at all. -/
theorem create_students_table_constraints_spec :
    (∀ r : InsertRow,
      rowSatisfiesTableConstraints r = true ↔
        ((∃ s, r.student_name = some s) ∧ (∃ s, r.first_name = some s) ∧
         (∃ s, r.last_name = some s) ∧
         (∃ a, r.age = some a ∧ 0 < a) ∧
         (∃ m, r.average_mark = some m ∧ 0 ≤ m ∧ m ≤ 10) ∧
         (∃ g, r.gender = some g ∧ (g = "m" ∨ g = "f")))) ∧
    (∀ (r : InsertRow) (p : Option Int),
      rowSatisfiesTableConstraints { r with phone_number := p } =
        rowSatisfiesTableConstraints r) := by
  constructor
  · intro r
    obtain ⟨sn, fn, ln, a, m, g, p⟩ := r
    cases sn <;> cases fn <;> cases ln <;> cases a <;> cases m <;> cases g <;>
      (simp [rowSatisfiesTableConstraints]; try tauto)
  · intro r p
    rfl

/-- C7: the gender analysis returns rows strictly ascending in the gender
key, one row per gender occurring among the rows with average mark above
5.0, each row aggregating count, average, min and max of the average mark
over exactly the above-threshold rows of its gender; on the three example
rows it returns exactly the groups (f, 1, 6.0) and (m, 1, 8.0). -/
theorem analyze_student_performance_by_gender_spec :
    (∀ table : List StudentRow,
      List.Chain' (fun a b : GenderAgg => a.gender < b.gender)
        (analyze_student_performance_by_gender table)) ∧
    (∀ table : List StudentRow, ∀ row ∈ analyze_student_performance_by_gender table,
      row.student_count =
        (((table.filter (fun r => decide ((5 : Rat) < r.average_mark))).filter
          (fun r => r.gender == row.gender)).map (fun r => r.average_mark)).length ∧
      row.avg_mark_in_group =
        sqlAvg (((table.filter (fun r => decide ((5 : Rat) < r.average_mark))).filter
          (fun r => r.gender == row.gender)).map (fun r => r.average_mark)) ∧
      row.min_mark_in_group =
        sqlMin (((table.filter (fun r => decide ((5 : Rat) < r.average_mark))).filter
          (fun r => r.gender == row.gender)).map (fun r => r.average_mark)) ∧
      row.max_mark_in_group =
        sqlMax (((table.filter (fun r => decide ((5 : Rat) < r.average_mark))).filter
          (fun r => r.gender == row.gender)).map (fun r => r.average_mark))) ∧
    (∀ (table : List StudentRow) (g : String),
      (∃ row ∈ analyze_student_performance_by_gender table, row.gender = g) ↔
        g ∈ (table.filter (fun r => decide ((5 : Rat) < r.average_mark))).map
          (fun r => r.gender)) ∧
    analyze_student_performance_by_gender
      [⟨20, 6, "f"⟩, ⟨20, 4, "f"⟩, ⟨20, 8, "m"⟩] =
      [⟨"f", 1, 6, 6, 6⟩, ⟨"m", 1, 8, 8, 8⟩] := by
  refine ⟨?_, ?_, ?_, ?_⟩
  · intro table
    rw [analyze_student_performance_by_gender, List.chain'_map]
    exact (chain'_sortedKeys _).imp (fun a b hab => (strLt_iff_lt a b).mp hab)
  · intro table row hrow
    rw [analyze_student_performance_by_gender] at hrow
    rcases List.mem_map.mp hrow with ⟨g, hg, rfl⟩
    exact ⟨rfl, rfl, rfl, rfl⟩
  · intro table g
    constructor
    · rintro ⟨row, hrow, hgen⟩
      rw [analyze_student_performance_by_gender] at hrow
      rcases List.mem_map.mp hrow with ⟨k, hk, rfl⟩
      have : k = g := hgen
      subst this
      exact mem_sortedKeys.mp hk
    · intro hg
      refine ⟨mkGenderAgg g (table.filter (fun r => decide ((5 : Rat) < r.average_mark))),
        ?_, rfl⟩
      rw [analyze_student_performance_by_gender]
      exact List.mem_map_of_mem _ (mem_sortedKeys.mpr hg)
  · have h1 : (("f" : String) = "m") = False := by decide
    have h2 : (("m" : String) = "f") = False := by decide
    have h3 : (('f' : Char) < 'm') = True := by decide
    norm_num [analyze_student_performance_by_gender, mkGenderAgg,
      sortedKeys, insertKey, strLt, lexLt, sqlAvg, sqlMin, sqlMax, h1, h2, h3]

/-- C8 counterexample: with the re-queried table holding four valid rows
after a three-record batch on an initially empty table,
`verify_insertion_success` passes (its test is `actual >= len(df)`), while
the claimed equality against pre-batch count plus inserted count (0 + 3)
fails — the code reports no mismatch where the claim requires one. -/
theorem verification_comparison_counterexample :
    verify_insertion_success
      (List.replicate 4 ⟨some "Ann Lee", some "Ann", some "Lee", some 20, some 6,
        some "f", none⟩) 3 = true ∧
    (List.replicate 4 (⟨some "Ann Lee", some "Ann", some "Lee", some 20, some 6,
        some "f", none⟩ : InsertRow)).length ≠ 0 + 3 ∧
    claimedVerificationCheck 4 0 3 = false := by
  decide

/-- C8 (amended): the post-commit verification re-queries the row count
and passes iff that count is at least the attempted batch's size (the
pre-batch count is not added, and the comparison is not an equality) and
no required column of the table holds a null; after a committed batch,
`main` never modifies the table again and always completes, raising only a
non-fatal warning when the verification fails. -/
theorem verify_insertion_success_spec :
    (∀ (table : List InsertRow) (n : Nat),
      verify_insertion_success table n = true ↔
        n ≤ table.length ∧ ∀ r ∈ table, requiredFieldsPresent r = true) ∧
    (∀ (table batch : List InsertRow) (allow : Bool) (committed : List InsertRow),
      insert_student_data table batch allow = (.ok, committed) →
        (main_insert_and_verify table batch allow).2 = committed ∧
        (main_insert_and_verify table batch allow).1 =
          .completed (!verify_insertion_success committed batch.length)) := by
  constructor
  · intro table n
    unfold verify_insertion_success
    by_cases h : n ≤ table.length
    · simp [h, List.all_eq_true]
    · simp [h]
  · intro table batch allow committed h
    unfold main_insert_and_verify
    rw [h]
    cases hv : verify_insertion_success committed batch.length <;> simp [hv]

/-- C9 counterexample: on a table holding a single row (age 18, average
mark 3.0), the age-bucket query returns the bucket `Under 20` with one
student of average 3.0 — a row below the 5.0 threshold — while the same
breakdown restricted to the claimed filtered population (mark above 5.0)
is empty. -/
theorem age_bucket_unfiltered_counterexample :
    perform_additional_exploratory_analysis [⟨18, 3, "f"⟩] =
      [⟨"Under 20", 1, 0, 3⟩] ∧
    perform_additional_exploratory_analysis
      ([(⟨18, 3, "f"⟩ : StudentRow)].filter
        (fun r => decide ((5 : Rat) < r.average_mark))) = [] := by
  constructor
  · norm_num [perform_additional_exploratory_analysis, mkAgeAgg,
      firstAppearanceKeys, sortByAvgDesc, insertByAvgDesc, age_group, sqlAvg]
  · norm_num [perform_additional_exploratory_analysis,
      firstAppearanceKeys, sortByAvgDesc]

/-- C9 (amended): the age-bucket breakdown groups every persisted row —
with no average-mark filter — into the buckets given by the age CASE
expression (`Under 20`, `20-25`, `Over 25`), reporting per occurring
bucket the total row count, the count of rows with mark above 5.0, and the
average mark over all its rows, ordered weakly descending by that
average. -/
theorem perform_additional_exploratory_analysis_spec :
    (∀ table : List StudentRow,
      List.Chain' (fun x y : AgeAgg => y.avg_mark ≤ x.avg_mark)
        (perform_additional_exploratory_analysis table)) ∧
    (∀ table : List StudentRow, ∀ row ∈ perform_additional_exploratory_analysis table,
      row.total_students = (table.filter (fun r => age_group r.age == row.age_group)).length ∧
      row.high_performers =
        ((table.filter (fun r => age_group r.age == row.age_group)).filter
          (fun r => decide ((5 : Rat) < r.average_mark))).length ∧
      row.avg_mark =
        sqlAvg ((table.filter (fun r => age_group r.age == row.age_group)).map
          (fun r => r.average_mark))) ∧
    (∀ a : Int, age_group a = "Under 20" ∨ age_group a = "20-25" ∨ age_group a = "Over 25") ∧
    (∀ (table : List StudentRow) (g : String),
      (∃ row ∈ perform_additional_exploratory_analysis table, row.age_group = g) ↔
        g ∈ table.map (fun r => age_group r.age)) := by
  refine ⟨?_, ?_, ?_, ?_⟩
  · intro table
    exact chain'_sortByAvgDesc _
  · intro table row hrow
    rw [perform_additional_exploratory_analysis] at hrow
    rcases List.mem_map.mp (mem_sortByAvgDesc.mp hrow) with ⟨g, hg, rfl⟩
    exact ⟨rfl, rfl, rfl⟩
  · intro a
    unfold age_group
    by_cases h1 : a < 20
    · simp [h1]
    · by_cases h2 : 20 ≤ a ∧ a ≤ 25
      · simp [h1, h2]
      · simp only [h1, if_false]
        by_cases h2a : (20 ≤ a)
        · have : ¬ (a ≤ 25) := fun hh => h2 ⟨h2a, hh⟩
          simp [h2a, this]
        · simp [h2a]
  · intro table g
    constructor
    · rintro ⟨row, hrow, hgen⟩
      rw [perform_additional_exploratory_analysis] at hrow
      rcases List.mem_map.mp (mem_sortByAvgDesc.mp hrow) with ⟨k, hk, rfl⟩
      have : k = g := hgen
      subst this
      exact mem_firstAppearanceKeys.mp hk
    · intro hg
      refine ⟨mkAgeAgg g table, ?_, rfl⟩
      rw [perform_additional_exploratory_analysis]
      exact mem_sortByAvgDesc.mpr
        (List.mem_map_of_mem _ (mem_firstAppearanceKeys.mpr hg))

/-- C10: two cleaned batches agreeing on every column except the phone
number get the same verdict from `validate_data_before_insertion` — the
validation outcome never depends on the phone column. -/
theorem validate_data_before_insertion_phone_independent (df₁ df₂ : List Record)
    (h : agreeExceptPhone df₁ df₂ = true) :
    validate_data_before_insertion df₁ = validate_data_before_insertion df₂ := by
  rw [← validate_scrub df₁, ← validate_scrub df₂, agree_scrub h]

/-- C10 witness: two one-record batches differing only in the phone cell —
one malformed text, one integer — validate identically, and the batch with
the malformed phone passes. -/
theorem validate_data_before_insertion_phone_independent_witness :
    agreeExceptPhone
      [⟨.str "Ann Lee", .str "Ann", .str "Lee", .num 20, .num 6, .str "f",
        .str "broken phone"⟩]
      [⟨.str "Ann Lee", .str "Ann", .str "Lee", .num 20, .num 6, .str "f",
        .num 380501234567⟩] = true ∧
    validate_data_before_insertion
      [⟨.str "Ann Lee", .str "Ann", .str "Lee", .num 20, .num 6, .str "f",
        .str "broken phone"⟩] =
    validate_data_before_insertion
      [⟨.str "Ann Lee", .str "Ann", .str "Lee", .num 20, .num 6, .str "f",
        .num 380501234567⟩] ∧
    validate_data_before_insertion
      [⟨.str "Ann Lee", .str "Ann", .str "Lee", .num 20, .num 6, .str "f",
        .str "broken phone"⟩] = true :=
  ⟨by decide,
   validate_data_before_insertion_phone_independent _ _ (by decide),
   by decide⟩

end StudentAnalysis
